import Mathlib

/-!
Verification of the OMERO GDSC analyser scripts
(`Colocalisation_Analyser.py` and `Correlation_Analyser.py`).

Shallow-embedding conventions used throughout this file:

* A line read from the captured stdout file is a `List Char` that still
  carries its trailing `'\n'`, exactly as Python's file iteration yields it.
* A Python `dict` keyed by image id is an association list; assignment
  `m[k] = v` is `dinsert`, which replaces the value in place when the key is
  present and appends a new pair otherwise (so keys stay distinct).
* The regular expressions of the scripts are implemented as explicit
  matchers with Python `re.match` semantics: the match is anchored at the
  start only, `.` matches any character except `'\n'`, `\d+` and the other
  quantifiers are greedy with backtracking, and `$` also matches just
  before one trailing `'\n'`.
* The effectful pipeline (`run` in both scripts) is modelled as a pure
  function from a parameter record and an environment (the resolved
  images, which exports raise, the subprocess outcome, the captured
  stdout, whether sending mail or removing the directory raises) to a pair
  of the returned value (`none` when an uncaught exception escapes) and
  the list of externally visible actions performed, in order.
-/

abbrev Line := List Char

/-- The `\d` class of the patterns (ASCII digits, as for Python 2 `re` on
`str` without `re.UNICODE`). -/
def isDigitCh (c : Char) : Bool := c.isDigit

/-- The character class `[a-zA-Z0-9._%-]` of the e-mail pattern in
`validate_email`. -/
def isEmailChar (c : Char) : Bool :=
  c.isAlpha || c.isDigit || c == '.' || c == '_' || c == '%' || c == '-'

/-- The character class `[a-zA-Z]` of the e-mail pattern. -/
def isLetterCh (c : Char) : Bool := c.isAlpha

/-- Numeric value of a digit string, as Python's `long(m.group(1))`. -/
def natOfDigits (ds : List Char) : Nat :=
  ds.foldl (fun n c => n * 10 + (c.toNat - '0'.toNat)) 0

/-- Python `dict` assignment `m[k] = v` on an association list: replace the
value in place when the key is present, append a new pair otherwise. -/
def dinsert (m : List (Nat × Line)) (k : Nat) (v : Line) : List (Nat × Line) :=
  if m.any (fun p => p.1 == k) then m.map (fun p => if p.1 == k then (k, v) else p)
  else m ++ [(k, v)]

/-- The keys of the association list modelling the results dict. -/
def keysOf (m : List (Nat × Line)) : List Nat := m.map Prod.fst

/-- Python `"\n".join(result)` used by the colocalisation extractor. -/
def joinNL : List Line → Line
  | [] => []
  | [a] => a
  | a :: b :: rest => a ++ '\n' :: joinNL (b :: rest)

/-! ### The three stdout patterns, with `re.match` semantics

`Colocalisation_Analyser.extract_results` uses
`re.match("(\d+).ome.tif,(.*)", line)` for data lines and
`re.match("Image,(p,Method.*)", line)` for block headers;
`Correlation_Analyser.extract_results` uses
`re.match("Stack correlation [^ ]* : (\d+).ome.tif", line)`.
The dots around `ome` and `tif` are unescaped in the source, so they match
any non-newline character. -/

/-- Remainder of the colocalisation data pattern after the `(\d+)` group:
`.ome.tif,` with two any-character dots; returns the text after the comma. -/
def dataTailA : List Char → Option (List Char)
  | a :: 'o' :: 'm' :: 'e' :: b :: 't' :: 'i' :: 'f' :: ',' :: r =>
      if a != '\n' && b != '\n' then some r else none
  | _ => none

/-- Greedy backtracking for the `(\d+)` group of the data pattern: try the
longest digit run first (`ds` is the maximal digit prefix, `rest` the
remainder of the line), shortening the captured group until the tail of the
pattern matches. `(.*)` then captures greedily up to the newline. -/
def dataDigitsA (ds rest : List Char) : Nat → Option (Nat × List Char)
  | 0 => none
  | k + 1 =>
      match dataTailA (ds.drop (k + 1) ++ rest) with
      | some r => some (natOfDigits (ds.take (k + 1)), r.takeWhile (fun c => c != '\n'))
      | none => dataDigitsA ds rest k

/-- `re.match("(\d+).ome.tif,(.*)", line)`: the image id (group 1, as a
number) and the data payload (group 2). -/
def matchDataA (cs : List Char) : Option (Nat × List Char) :=
  dataDigitsA (cs.takeWhile isDigitCh) (cs.dropWhile isDigitCh)
    (cs.takeWhile isDigitCh).length

/-- Anchored literal-prefix test used by the header patterns. -/
def isPrefixCh : List Char → List Char → Bool
  | [], _ => true
  | _ :: _, [] => false
  | a :: as, b :: bs => a == b && isPrefixCh as bs

/-- `re.match("Image,(p,Method.*)", line)`: group 1 is `p,Method` followed
by the rest of the line up to the newline (`.*` is greedy, `.` excludes
`'\n'`). -/
def matchHeaderA (cs : List Char) : Option (List Char) :=
  if isPrefixCh "Image,p,Method".data cs then
    some ("p,Method".data ++ (cs.drop 14).takeWhile (fun c => c != '\n'))
  else none

/-- Remainder of the correlation header pattern after the `(\d+)` group:
`.ome.tif` with two any-character dots; the pattern is a prefix match, so
anything may follow. -/
def idTailB : List Char → Bool
  | a :: 'o' :: 'm' :: 'e' :: b :: 't' :: 'i' :: 'f' :: _ =>
      a != '\n' && b != '\n'
  | _ => false

/-- Greedy backtracking for the `(\d+)` group of the correlation header. -/
def idDigitsB (ds rest : List Char) : Nat → Option Nat
  | 0 => none
  | k + 1 =>
      if idTailB (ds.drop (k + 1) ++ rest) then some (natOfDigits (ds.take (k + 1)))
      else idDigitsB ds rest k

/-- The `(\d+).ome.tif` part of the correlation header pattern. -/
def matchIdB (cs : List Char) : Option Nat :=
  idDigitsB (cs.takeWhile isDigitCh) (cs.dropWhile isDigitCh)
    (cs.takeWhile isDigitCh).length

/-- The part of the correlation header after the literal
`"Stack correlation "`: `[^ ]*` is a greedy run of non-space characters;
a shorter run would leave a non-space character where the following
literal `" : "` requires a space, so only the maximal run can match. -/
def headerTailB (rest : List Char) : Option Nat :=
  match rest.dropWhile (fun c => c != ' ') with
  | ' ' :: ':' :: ' ' :: r => matchIdB r
  | _ => none

/-- `re.match("Stack correlation [^ ]* : (\d+).ome.tif", line)`: the image
id of a correlation result block header. -/
def matchHeaderB (cs : List Char) : Option Nat :=
  if isPrefixCh "Stack correlation ".data cs then headerTailB (cs.drop 18)
  else none

/-- Python `line.startswith("t")` used by the correlation extractor for
rows inside a result block. -/
def startsT : Line → Bool
  | 't' :: _ => true
  | _ => false

/-! ### The e-mail pattern of `validate_email`

`re.match("^[a-zA-Z0-9._%-]+@[a-zA-Z0-9._%-]+.[a-zA-Z]{2,6}$", userEmail)`.
The dot before `[a-zA-Z]{2,6}` is unescaped, so it matches any non-newline
character. -/

/-- `$` matches at the end of the string or just before one trailing
newline. -/
def endOk : List Char → Bool
  | [] => true
  | [c] => c == '\n'
  | _ => false

/-- Greedy `[a-zA-Z]{2,6}$`: try a 6-letter prefix first, backtracking down
to 2 letters, each followed by the end of the string. -/
def letterTailN (r : List Char) : Nat → Bool
  | 0 => false
  | n + 1 =>
      (decide (2 ≤ n + 1) && (r.take (n + 1)).length == n + 1 &&
        (r.take (n + 1)).all isLetterCh && endOk (r.drop (n + 1))) ||
      letterTailN r n

/-- The `.` (any non-newline character) followed by `[a-zA-Z]{2,6}$`. -/
def emailTail : List Char → Bool
  | [] => false
  | c :: r => c != '\n' && letterTailN r 6

/-- Greedy backtracking for the second `[a-zA-Z0-9._%-]+` group: `ms` is
the maximal class run after the `@`, `rest` what follows it; try consuming
all of `ms` first, then shorten down to one character. -/
def emailScan (ms rest : List Char) : Nat → Bool
  | 0 => false
  | k + 1 => emailTail (ms.drop (k + 1) ++ rest) || emailScan ms rest k

/-- The whole e-mail pattern. The first `[a-zA-Z0-9._%-]+` must be the
maximal class run: a shorter choice would leave a class character where the
pattern requires `@`, which is outside the class. -/
def emailMatch (cs : List Char) : Bool :=
  match cs.dropWhile isEmailChar with
  | '@' :: r2 =>
      if (cs.takeWhile isEmailChar).isEmpty then false
      else emailScan (r2.takeWhile isEmailChar) (r2.dropWhile isEmailChar)
             (r2.takeWhile isEmailChar).length
  | _ => false

/-- `validate_email` of both scripts, applied to the resolved address
(the script parameter when present, otherwise the profile address; the
lookup itself is an external collaborator). Truthiness of the returned
match object is the boolean result. -/
def validate_email (userEmail : String) : Bool := emailMatch userEmail.data

/-- Structural shape of the strings the e-mail pattern accepts: a nonempty
local part over the class, `@`, a nonempty class run, one arbitrary
non-newline character (the unescaped dot), and a 2–6 letter tail at the
end of the string (a single trailing newline is tolerated by `$`). -/
def EmailShape (cs : List Char) : Prop :=
  ∃ l m c t z, cs = l ++ '@' :: (m ++ c :: (t ++ z)) ∧
    l ≠ [] ∧ l.all isEmailChar = true ∧
    m ≠ [] ∧ m.all isEmailChar = true ∧
    c ≠ '\n' ∧ t.all isLetterCh = true ∧ 2 ≤ t.length ∧ t.length ≤ 6 ∧
    (z = [] ∨ z = ['\n'])

/-! ### The colocalisation output grammar (Grammar A)

`Colocalisation_Analyser.extract_results` (lines 216–258): a two-state
line machine. `extract` is the `extract_result` flag, `image_id` the id of
the last matched data row (`0` when none), `result` the accumulator and
`results` the output dict. -/

namespace Coloc

structure MachineState where
  extract : Bool := false
  image_id : Nat := 0
  result : List Line := []
  results : List (Nat × Line) := []
deriving DecidableEq, Repr

def initState : MachineState := {}

/-- The loop body of `extract_results`: while inside a block, a data line
appends its payload and records its id; any other line flushes the block
under the current id and leaves the block; a line seen outside a block
(including one that just caused a flush) is checked against the header
pattern. -/
def step (s : MachineState) (line : Line) : MachineState :=
  let s1 :=
    if s.extract then
      match matchDataA line with
      | some (id, payload) => { s with image_id := id, result := s.result ++ [payload] }
      | none =>
          { s with results := dinsert s.results s.image_id (joinNL s.result),
                   image_id := 0, extract := false }
    else s
  if s1.extract then s1
  else
    match matchHeaderA line with
    | some g => { s1 with extract := true, result := [g] }
    | none => s1

/-- Flushing the open accumulator under the current image id and returning
to the OUTSIDE state (the `else` arm of the inside test, stated on its
own). -/
def flush (s : MachineState) : MachineState :=
  { s with results := dinsert s.results s.image_id (joinNL s.result),
           image_id := 0, extract := false }

/-- The OUTSIDE evaluation of a line as a possible new block header. -/
def scanHeader (s : MachineState) (line : Line) : MachineState :=
  match matchHeaderA line with
  | some g => { s with extract := true, result := [g] }
  | none => s

/-- `extract_results` of the colocalisation script on the lines of the
capture file: fold the machine, then flush a final open block only when a
data row has set the image id. -/
def extract_results (lines : List Line) : List (Nat × Line) :=
  if (lines.foldl step initState).image_id ≠ 0 then
    dinsert (lines.foldl step initState).results (lines.foldl step initState).image_id
      (joinNL (lines.foldl step initState).result)
  else (lines.foldl step initState).results

end Coloc

/-! ### The correlation output grammar (Grammar B)

`Correlation_Analyser.extract_results` (lines 207–249): the INSIDE state
is exactly `image_id ≠ 0`; rows are appended verbatim (with their
newlines) and joined with `"".join`. -/

namespace Corr

structure MachineState where
  image_id : Nat := 0
  result : List Line := []
  results : List (Nat × Line) := []
deriving DecidableEq, Repr

def initState : MachineState := {}

/-- The loop body of the correlation `extract_results`. -/
def step (s : MachineState) (line : Line) : MachineState :=
  let s1 :=
    if s.image_id ≠ 0 then
      if startsT line then { s with result := s.result ++ [line] }
      else { s with results := dinsert s.results s.image_id (List.flatten s.result),
                    image_id := 0 }
    else s
  if s1.image_id = 0 then
    match matchHeaderB line with
    | some id => { s1 with result := [line], image_id := id }
    | none => s1
  else s1

/-- Flushing the open accumulator under the current image id (the `else`
arm of the row test, stated on its own). -/
def flush (s : MachineState) : MachineState :=
  { s with results := dinsert s.results s.image_id (List.flatten s.result),
           image_id := 0 }

/-- The OUTSIDE evaluation of a line as a possible new block header. -/
def scanHeader (s : MachineState) (line : Line) : MachineState :=
  match matchHeaderB line with
  | some id => { s with result := [line], image_id := id }
  | none => s

/-- `extract_results` of the correlation script. -/
def extract_results (lines : List Line) : List (Nat × Line) :=
  if (lines.foldl step initState).image_id ≠ 0 then
    dinsert (lines.foldl step initState).results (lines.foldl step initState).image_id
      (List.flatten (lines.foldl step initState).result)
  else (lines.foldl step initState).results

end Corr

/-- A well-formed colocalisation data line for digit string `ds` and
payload `p`: `<ds>.ome.tif,<p>` plus the line's newline. -/
def dataLineA (ds p : List Char) : Line :=
  ds ++ ['.', 'o', 'm', 'e', '.', 't', 'i', 'f', ','] ++ p ++ ['\n']

/-! ### Images, validation errors and pipeline actions -/

/-- The per-image metadata the scripts read from a resolved OMERO image:
identifier, name, channel names and the three stack dimensions used by the
generated script. -/
structure Img where
  id : Nat
  name : String
  channels : List String
  sizeC : Nat
  sizeZ : Nat
  sizeT : Nat
deriving DecidableEq, Repr

/-- One `ERROR:` line printed by `check_parameters`. -/
inductive VErr where
  | channel : Nat → String → VErr
  | shift : Int → Int → VErr
  | noDistribution : VErr
deriving DecidableEq, Repr

/-- The externally visible actions of one pipeline run, in order: exporting
one image to the workspace, invoking the external tool, deleting the
tracked temporary files, uploading one per-image result attachment,
submitting the e-mail, removing the temporary directory. -/
inductive Act where
  | exportImage : Nat → Act
  | invokeTool : Act
  | removeTempFiles : Act
  | uploadResult : Nat → Act
  | sendEmail : Act
  | removeTempDir : Act
deriving DecidableEq, Repr

/-- The environment of one run: the images the id list resolved to (`none`
for an unresolvable reference), the ids whose export read raises, whether
launching the subprocess raises `OSError`, its exit code, the lines of the
capture file it produced, and whether the e-mail submission or the final
directory removal raises. -/
structure RunEnv where
  images : List (Option Img)
  exportFails : List Nat
  procLaunchFails : Bool
  procExit : Nat
  captureLines : List Line
  emailFails : Bool
  rmdirFails : Bool

/-- `extract_images` of both scripts: `None` entries are skipped with
`continue`; a successful export appends the image; an export whose read
raises propagates the exception (`Except.error`), losing the rest of the
list. The traces record the exports that completed. -/
def extract_images (fails : List Nat) : List (Option Img) → Except (List Act) (List Img × List Act)
  | [] => Except.ok ([], [])
  | none :: rest => extract_images fails rest
  | some img :: rest =>
      if img.id ∈ fails then Except.error []
      else
        match extract_images fails rest with
        | Except.error tr => Except.error (Act.exportImage img.id :: tr)
        | Except.ok (l, tr) => Except.ok (img :: l, Act.exportImage img.id :: tr)

/-- The variant-specific ingredients the shared `run` skeleton consumes:
the id list and distribution flags of the parameters, `check_parameters`,
whether writing the generated script succeeds (script generation indexes
the unfiltered image list, so it can crash), and the stdout grammar. -/
structure PipelineSpec where
  ids : List Nat
  uploadResults : Bool
  emailResults : Bool
  check : List (Option Img) → Bool × List VErr
  buildOk : List (Option Img) → List Img → Bool
  extract : List Line → List (Nat × Line)

/-- `run_imagej` of both scripts: an empty export list returns the empty
dict at once (no invocation, no cleanup). Otherwise the script is written
(crashing — `Except.error` — when generation fails), the tool is invoked,
a launch error or non-zero exit leaves the dict empty, and the tracked
temporary files are deleted in a bare `try/except: pass` afterwards. -/
def run_imagej (S : PipelineSpec) (env : RunEnv) (exported : List Img) :
    Except (List Act) (List (Nat × Line) × List Act) :=
  if exported.isEmpty then Except.ok ([], [])
  else if S.buildOk env.images exported then
    Except.ok
      ((if env.procLaunchFails then []
        else if env.procExit ≠ 0 then []
        else S.extract env.captureLines),
       [Act.invokeTool, Act.removeTempFiles])
  else Except.error []

/-- The results dict a run that returns normally ends up with: empty when
nothing was exported or the tool failed, otherwise the grammar applied to
the capture file. -/
def pipelineResults (S : PipelineSpec) (env : RunEnv) : List (Nat × Line) :=
  if (env.images.filterMap id).isEmpty then []
  else if env.procLaunchFails then []
  else if env.procExit ≠ 0 then []
  else S.extract env.captureLines

/-- `run` of both scripts (Colocalisation lines 430–483, Correlation lines
383–436): return `-1` on an empty id list or failed validation; otherwise
export, run the tool, distribute when the dict is nonempty (upload per
image, then e-mail; either may raise), remove the temporary directory
(whose failure raises), and return `len(results)`. The first component is
`none` when an uncaught exception escapes `run`; the second lists the
actions performed. The trace accumulated before distribution: exports,
invocation, temp-file cleanup, then the per-image uploads when enabled. -/
def runTrace (S : PipelineSpec) (tr0 tr1 : List Act) (results : List (Nat × Line)) : List Act :=
  tr0 ++ tr1 ++
    (if !results.isEmpty && S.uploadResults then
        results.map (fun kv => Act.uploadResult kv.1) else [])

/-- The body of `run` after `run_imagej` returned `results`: upload when
enabled and the dict is nonempty, e-mail when enabled (the submission may
raise), remove the temporary directory (removal may raise), return
`len(results)`. -/
def distributePhase (S : PipelineSpec) (env : RunEnv) (tr0 tr1 : List Act)
    (results : List (Nat × Line)) : Option Int × List Act :=
  if !results.isEmpty && S.emailResults then
    if env.emailFails then (none, runTrace S tr0 tr1 results)
    else if env.rmdirFails then (none, runTrace S tr0 tr1 results ++ [Act.sendEmail])
    else (some (results.length : Int),
          runTrace S tr0 tr1 results ++ [Act.sendEmail, Act.removeTempDir])
  else if env.rmdirFails then (none, runTrace S tr0 tr1 results)
  else (some (results.length : Int), runTrace S tr0 tr1 results ++ [Act.removeTempDir])

def runPipeline (S : PipelineSpec) (env : RunEnv) : Option Int × List Act :=
  if S.ids.isEmpty then (some (-1), [])
  else if (S.check env.images).1 = false then (some (-1), [])
  else
    match extract_images env.exportFails env.images with
    | Except.error tr => (none, tr)
    | Except.ok (exported, tr0) =>
        match run_imagej S env exported with
        | Except.error tr1 => (none, tr0 ++ tr1)
        | Except.ok (results, tr1) => distributePhase S env tr0 tr1 results

/-! ### The colocalisation variant -/

namespace Coloc

/-- The script parameters of `Colocalisation_Analyser.py` that the
modelled pipeline reads. `channel3` is optional; Python truthiness treats
`None` and the empty string as absent. -/
structure Params where
  ids : List Nat
  channel1 : String
  channel2 : String
  channel3 : Option String
  method : String
  permutations : Nat
  minShift : Int
  maxShift : Int
  uploadResults : Bool
  emailResults : Bool

/-- The scan of `find_channel_index` with the running 0-based index. -/
def find_channel_index_go (c : String) : Nat → List String → Int
  | _, [] => -1
  | i, ch :: rest =>
      if ch = c ∨ toString (i + 1) = c then Int.ofNat i
      else find_channel_index_go c (i + 1) rest

/-- `find_channel_index` (lines 381–392): the first index whose channel
name equals the selector or whose 1-based position, printed in decimal,
equals the selector; `-1` when none does. -/
def find_channel_index (img : Img) (c : String) : Int :=
  find_channel_index_go c 0 img.channels

/-- The channel selectors `check_parameters` validates: channels 1 and 2
always, channel 3 only when truthy. -/
def selList (p : Params) : List String :=
  [p.channel1, p.channel2] ++
    (match p.channel3 with
     | some s => if s.isEmpty then [] else [s]
     | none => [])

/-- The channel `ERROR:` lines of `check_parameters`: one per non-`None`
image and unresolvable selector, in scan order. -/
def channel_errors (images : List (Option Img)) (p : Params) : List VErr :=
  images.flatMap (fun o =>
    match o with
    | some img =>
        (selList p).filterMap (fun c =>
          if find_channel_index img c < 0 then some (VErr.channel img.id c) else none)
    | none => [])

/-- All `ERROR:` lines `check_parameters` prints: every unresolvable
channel of every image, the shift-bound violation, and the
no-distribution violation — the scan does not stop at the first one. -/
def check_errors (images : List (Option Img)) (p : Params) : List VErr :=
  channel_errors images p ++
    (if p.maxShift ≤ p.minShift then [VErr.shift p.maxShift p.minShift] else []) ++
    (if !p.uploadResults && !p.emailResults then [VErr.noDistribution] else [])

/-- `check_parameters` (lines 394–428): the returned boolean is `True`
exactly when no `ERROR:` line was printed; the second component is the
list of printed violations. -/
def check_parameters (images : List (Option Img)) (p : Params) : Bool × List VErr :=
  ((check_errors images p).isEmpty, check_errors images p)

/-- The local file name an exported image gets (the per-run temporary
directory prefix is elided). -/
def image_path (img : Img) : String := toString img.id ++ ".ome.tif"

/-- One command block of the generated colocalisation script: the opened
file, the `Stack to Hyperstack...` dimensions taken from `img.getSizeC()`,
`getSizeZ()`, `getSizeT()`, and the resolved 1-based channel arguments
(`channel_3` is the printed token: an index or `[None]`). -/
structure ScriptBlock where
  path : String
  channels : Nat
  slices : Nat
  frames : Nat
  channel1 : Int
  channel2 : Int
  channel3 : String
deriving DecidableEq, Repr

/-- The script-generation loop of `run_imagej` (lines 287–307): iterate the
exported file names with `enumerate` and read `images[i]` from the
*unfiltered* image list; a `None` at such an index crashes the loop
(`AttributeError` in the source), modelled as `none`. -/
def build_script_go (p : Params) (images : List (Option Img)) : Nat → List Img → Option (List ScriptBlock)
  | _, [] => some []
  | i, e :: es =>
      match images.get? i with
      | some (some img) =>
          match build_script_go p images (i + 1) es with
          | some bs =>
              let c1 := find_channel_index img p.channel1
              let c2 := find_channel_index img p.channel2
              let c3 : Int :=
                match p.channel3 with
                | some s => if s.isEmpty then -1 else find_channel_index img s
                | none => -1
              some ({ path := image_path e, channels := img.sizeC, slices := img.sizeZ,
                      frames := img.sizeT, channel1 := c1 + 1, channel2 := c2 + 1,
                      channel3 := if c3 ≥ 0 then toString (c3 + 1) else "[None]" } :: bs)
          | none => none
      | _ => none

/-- The command blocks of the generated colocalisation script, or `none`
when generation crashes. -/
def build_script (p : Params) (images : List (Option Img)) (exported : List Img) :
    Option (List ScriptBlock) :=
  build_script_go p images 0 exported

/-- The colocalisation instantiation of the shared pipeline skeleton. -/
def spec (p : Params) : PipelineSpec :=
  { ids := p.ids
    uploadResults := p.uploadResults
    emailResults := p.emailResults
    check := fun images => check_parameters images p
    buildOk := fun images exported => (build_script p images exported).isSome
    extract := extract_results }

end Coloc

/-! ### The correlation variant -/

namespace Corr

/-- The script parameters of `Correlation_Analyser.py` that the modelled
pipeline reads. -/
structure Params where
  ids : List Nat
  method : String
  intersect : Bool
  aggregateStack : Bool
  uploadResults : Bool
  emailResults : Bool

/-- `check_parameters` (lines 361–381): the per-image loop is a `TODO`
that checks nothing; the only violation is having neither distribution
flag set. -/
def check_errors (p : Params) : List VErr :=
  if !p.uploadResults && !p.emailResults then [VErr.noDistribution] else []

/-- The boolean result and printed violations of the correlation
`check_parameters`. -/
def check_parameters (_images : List (Option Img)) (p : Params) : Bool × List VErr :=
  ((check_errors p).isEmpty, check_errors p)

/-- One command block of the generated correlation script: the opened file
and the `Stack to Hyperstack...` dimensions of `images[i]`. -/
structure ScriptBlock where
  path : String
  channels : Nat
  slices : Nat
  frames : Nat
deriving DecidableEq, Repr

/-- The script-generation loop of the correlation `run_imagej` (lines
277–287), with the same `enumerate`/`images[i]` index pairing as the
colocalisation variant. -/
def build_script_go (images : List (Option Img)) : Nat → List Img → Option (List ScriptBlock)
  | _, [] => some []
  | i, e :: es =>
      match images.get? i with
      | some (some img) =>
          match build_script_go images (i + 1) es with
          | some bs =>
              some ({ path := Coloc.image_path e, channels := img.sizeC,
                      slices := img.sizeZ, frames := img.sizeT } :: bs)
          | none => none
      | _ => none

/-- The command blocks of the generated correlation script, or `none` when
generation crashes. -/
def build_script (images : List (Option Img)) (exported : List Img) :
    Option (List ScriptBlock) :=
  build_script_go images 0 exported

/-- The correlation instantiation of the shared pipeline skeleton. -/
def spec (p : Params) : PipelineSpec :=
  { ids := p.ids
    uploadResults := p.uploadResults
    emailResults := p.emailResults
    check := fun images => check_parameters images p
    buildOk := fun images exported => (build_script images exported).isSome
    extract := extract_results }

end Corr

/-- Whether position `j` of the channel list matches selector `c`, either
by exact name or as the 1-based index printed in decimal. -/
def matchesAt (chs : List String) (c : String) (j : Nat) : Prop :=
  j < chs.length ∧ (chs.get? j = some c ∨ toString (j + 1) = c)

/-! ### Concrete fixtures used by witnesses and counterexamples -/

/-- A two-channel test image with id 1. -/
def imgA : Img := { id := 1, name := "a.tif", channels := ["c1", "c2"], sizeC := 2, sizeZ := 1, sizeT := 1 }

/-- A two-channel test image with id 2. -/
def imgB : Img := { id := 2, name := "b.tif", channels := ["c1", "c2"], sizeC := 2, sizeZ := 1, sizeT := 1 }

/-- A two-channel test image with id 3. -/
def imgC : Img := { id := 3, name := "c.tif", channels := ["c1", "c2"], sizeC := 2, sizeZ := 1, sizeT := 1 }

/-- A test image with id 42 and distinctive dimensions. -/
def img42 : Img := { id := 42, name := "i.tif", channels := ["c1", "c2"], sizeC := 2, sizeZ := 3, sizeT := 4 }

/-- Valid colocalisation parameters for `img42` (e-mail distribution). -/
def colocP : Coloc.Params :=
  { ids := [42], channel1 := "c1", channel2 := "c2", channel3 := none, method := "Otsu",
    permutations := 100, minShift := 9, maxShift := 16, uploadResults := false,
    emailResults := true }

/-- Colocalisation parameters violating all three validation checks:
unresolvable first channel, maximum shift below minimum shift, and no
distribution flag. -/
def colocPbad : Coloc.Params :=
  { ids := [1], channel1 := "zz", channel2 := "c2", channel3 := none, method := "Otsu",
    permutations := 100, minShift := 5, maxShift := 1, uploadResults := false,
    emailResults := false }

/-- Valid correlation parameters (upload distribution). -/
def corrP : Corr.Params :=
  { ids := [1, 2, 3], method := "Otsu", intersect := true, aggregateStack := true,
    uploadResults := true, emailResults := false }

/-- Valid correlation parameters for a single image id. -/
def corrP42 : Corr.Params :=
  { ids := [42], method := "Otsu", intersect := true, aggregateStack := true,
    uploadResults := true, emailResults := false }

/-- A capture file with one colocalisation block for image 42. -/
def capture42 : List Line := ["Image,p,Method\n".data, "42.ome.tif,1,0.05\n".data]

/-- Environment where the export of image 2 raises while images 1 and 3
are readable. -/
def envC7 : RunEnv :=
  { images := [some imgA, some imgB, some imgC], exportFails := [2], procLaunchFails := false,
    procExit := 0, captureLines := [], emailFails := false, rmdirFails := false }

/-- Environment where every step up to distribution succeeds but the
e-mail submission raises. -/
def envC8a : RunEnv :=
  { images := [some img42], exportFails := [], procLaunchFails := false, procExit := 0,
    captureLines := capture42, emailFails := true, rmdirFails := false }

/-- Environment where the run succeeds until the final directory removal,
which raises. -/
def envC8b : RunEnv :=
  { images := [some img42], exportFails := [], procLaunchFails := false, procExit := 0,
    captureLines := [], emailFails := false, rmdirFails := true }

/-- Environment where every modelled failure is off and the tool produced
the block for image 42. -/
def envOK : RunEnv :=
  { images := [some img42], exportFails := [], procLaunchFails := false, procExit := 0,
    captureLines := capture42, emailFails := false, rmdirFails := false }

/-- Environment whose selection resolved to an unresolvable reference
followed by image 42. -/
def envC9 : RunEnv :=
  { images := [none, some img42], exportFails := [], procLaunchFails := false, procExit := 0,
    captureLines := [], emailFails := false, rmdirFails := false }

/-- Environment with no exports and an empty capture file. -/
def envEmpty : RunEnv :=
  { images := [some img42], exportFails := [], procLaunchFails := false, procExit := 0,
    captureLines := [], emailFails := false, rmdirFails := false }

/-- An INSIDE colocalisation machine state used to witness the flush
transition. -/
def stW : Coloc.MachineState :=
  { extract := true, image_id := 7, result := ["x".data], results := [] }

/-- An INSIDE correlation machine state used to witness the flush
transition. -/
def stWB : Corr.MachineState :=
  { image_id := 7, result := ["t1,a\n".data], results := [] }

/-- A line that matches neither grammar: not a data row, not a header, and
not a `t`-row. -/
def lineW : Line := "z\n".data

/-- A correlation block header line for image id 7. -/
def hdr7 : Line := "Stack correlation (Otsu) : 7.ome.tif\n".data

/-- The two-line colocalisation capture used by witnesses. -/
def a4lines : List Line := ["Image,p,Method\n".data, "3.ome.tif,0,Otsu\n".data]

/-- The two-line correlation capture used by witnesses. -/
def b4lines : List Line := [hdr7, "t1,a\n".data]

/-- Invariant of the Grammar A machine: the accumulator is nonempty while
INSIDE, a nonzero current id means a data row has been appended since the
header was seen, the keys of the output dict are distinct, and every block
stored under a nonzero key holds at least one data row beyond its header
(witnessed by the newline `"\\n".join` places between header and row). -/
def Coloc.Inv (s : Coloc.MachineState) : Prop :=
  (s.extract = true → 1 ≤ s.result.length) ∧
  (s.image_id ≠ 0 → s.extract = true ∧ 2 ≤ s.result.length) ∧
  (keysOf s.results).Nodup ∧
  (∀ k v, (k, v) ∈ s.results → k ≠ 0 → '\n' ∈ v)

/-- Invariant of the Grammar B machine: the keys of the output dict are
distinct. -/
def Corr.Inv (t : Corr.MachineState) : Prop := (keysOf t.results).Nodup

/-- Correlation parameters with neither distribution flag set. -/
def corrPbad : Corr.Params :=
  { ids := [1], method := "Otsu", intersect := true, aggregateStack := true,
    uploadResults := false, emailResults := false }

/-- A benign environment used by the validation-gate witness. -/
def envW2 : RunEnv :=
  { images := [some imgA], exportFails := [], procLaunchFails := false, procExit := 0,
    captureLines := [], emailFails := false, rmdirFails := false }

/-- The image of the spec's channel-resolution example. -/
def dapiImg : Img :=
  { id := 10, name := "d.tif", channels := ["DAPI", "GFP", "RFP"], sizeC := 3, sizeZ := 1, sizeT := 1 }

/-- An image whose third channel is literally named `"2"`. -/
def chImg : Img :=
  { id := 11, name := "x.tif", channels := ["A", "B", "2"], sizeC := 3, sizeZ := 1, sizeT := 1 }

/-! ### Helper lemmas -/

theorem takeWhile_all_append {q : Char → Bool} {l1 l2 : List Char}
    (h : ∀ c ∈ l1, q c = true) : (l1 ++ l2).takeWhile q = l1 ++ l2.takeWhile q := by
  induction l1 with
  | nil => simp
  | cons a t ih =>
      simp only [List.cons_append, List.takeWhile_cons, h a (by simp)]
      rw [ih (fun c hc => h c (by simp [hc]))]
      simp

theorem dropWhile_all_append {q : Char → Bool} {l1 l2 : List Char}
    (h : ∀ c ∈ l1, q c = true) : (l1 ++ l2).dropWhile q = l2.dropWhile q := by
  induction l1 with
  | nil => simp
  | cons a t ih =>
      simp only [List.cons_append, List.dropWhile_cons, h a (by simp)]
      exact ih (fun c hc => h c (by simp [hc]))

theorem takeWhile_ne_newline {p : List Char} (h : ∀ c ∈ p, c ≠ '\n') :
    (p ++ ['\n']).takeWhile (fun c => c != '\n') = p := by
  rw [takeWhile_all_append (fun c hc => by simp [h c hc])]
  simp

theorem mem_dinsert {m : List (Nat × Line)} {k k' : Nat} {v v' : Line}
    (h : (k', v') ∈ dinsert m k v) : (k', v') ∈ m ∨ (k' = k ∧ v' = v) := by
  unfold dinsert at h
  split at h
  · obtain ⟨p, hp, he⟩ := List.mem_map.mp h
    by_cases hk : (p.1 == k) = true
    · rw [if_pos hk] at he
      right
      simp only [Prod.mk.injEq] at he
      exact ⟨he.1.symm, he.2.symm⟩
    · rw [if_neg hk] at he
      left
      rwa [he] at hp
  · rcases List.mem_append.mp h with h1 | h1
    · exact Or.inl h1
    · right
      simp only [List.mem_singleton, Prod.mk.injEq] at h1
      exact h1

theorem keysOf_map_replace (m : List (Nat × Line)) (k : Nat) (v : Line) :
    keysOf (m.map (fun p => if p.1 == k then (k, v) else p)) = keysOf m := by
  unfold keysOf
  rw [List.map_map]
  apply List.map_congr_left
  intro p _
  by_cases hk : p.1 = k
  · simp [hk]
  · simp [hk]

theorem nodup_keys_dinsert {m : List (Nat × Line)} (k : Nat) (v : Line)
    (h : (keysOf m).Nodup) : (keysOf (dinsert m k v)).Nodup := by
  unfold dinsert
  split
  · rwa [keysOf_map_replace]
  · rename_i hany
    unfold keysOf
    rw [List.map_append]
    refine List.nodup_append.mpr ⟨h, List.nodup_singleton _, ?_⟩
    intro a ha hb
    simp only [List.map_cons, List.map_nil, List.mem_singleton] at hb
    subst hb
    apply hany
    obtain ⟨p, hp, he⟩ := List.mem_map.mp ha
    exact List.any_eq_true.mpr ⟨p, hp, by simp [he]⟩

theorem dinsert_single (k : Nat) (v1 v2 : Line) :
    dinsert [(k, v1)] k v2 = [(k, v2)] := by
  simp [dinsert]

theorem getLast?_append_single {α : Type} (l : List α) (a : α) :
    (l ++ [a]).getLast? = some a :=
  List.getLast?_concat _

theorem newline_mem_joinNL : ∀ {l : List Line}, 2 ≤ l.length → '\n' ∈ joinNL l
  | [], h => absurd h (by simp)
  | [_], h => absurd h (by simp)
  | a :: b :: rest, _ => by
      simp only [joinNL]
      exact List.mem_append_right _ (List.mem_cons_self _ _)

/-! ### Claim C1 -/

/-- Claim C1 (amended): in both grammars, reading a line that ends a result
block from the INSIDE state flushes the accumulated block under the current
image id, returns to the OUTSIDE state, and re-evaluates that same line as
a possible new block header within the same step (the step function equals
`scanHeader` after `flush`, so no line is skipped). End of file with an
open accumulator flushes it into the result map whenever an image id is
known — always in Grammar B, where the INSIDE state carries the id, and in
Grammar A exactly when at least one data row has been parsed since the
header (a header-only open accumulator is discarded at EOF, see the
counterexample). -/
theorem C1_flush_and_reeval :
    (∀ (s : Coloc.MachineState) (l : Line), s.extract = true → matchDataA l = none →
        Coloc.step s l = Coloc.scanHeader (Coloc.flush s) l) ∧
    (∀ (t : Corr.MachineState) (l : Line), t.image_id ≠ 0 → startsT l = false →
        Corr.step t l = Corr.scanHeader (Corr.flush t) l) ∧
    (∀ lines : List Line,
        (lines.foldl Coloc.step Coloc.initState).image_id ≠ 0 →
        Coloc.extract_results lines =
          dinsert (lines.foldl Coloc.step Coloc.initState).results
            (lines.foldl Coloc.step Coloc.initState).image_id
            (joinNL (lines.foldl Coloc.step Coloc.initState).result)) ∧
    (∀ lines : List Line,
        (lines.foldl Corr.step Corr.initState).image_id ≠ 0 →
        Corr.extract_results lines =
          dinsert (lines.foldl Corr.step Corr.initState).results
            (lines.foldl Corr.step Corr.initState).image_id
            (List.flatten (lines.foldl Corr.step Corr.initState).result)) := by
  refine ⟨?_, ?_, ?_, ?_⟩
  · intro s l hs hm
    simp [Coloc.step, Coloc.flush, Coloc.scanHeader, hs, hm]
  · intro t l ht hl
    simp [Corr.step, Corr.flush, Corr.scanHeader, ht, hl]
  · intro lines h
    rw [Coloc.extract_results, if_pos h]
  · intro lines h
    rw [Corr.extract_results, if_pos h]

/-- Claim C1 counterexample: a capture file consisting of a single header
line leaves the Grammar A accumulator open at end of file (the state is
INSIDE), yet nothing is flushed — the extracted map is empty, contradicting
the claim's unconditional "end of file with an open accumulator flushes
it". -/
theorem C1_cex :
    (["Image,p,Method,F\n".data].foldl Coloc.step Coloc.initState).extract = true ∧
    Coloc.extract_results ["Image,p,Method,F\n".data] = [] := by
  constructor <;> decide

/-- Claim C1 witness: the flush-and-re-evaluate transition and the EOF
flush, each instantiated at concrete inputs. -/
theorem C1_witness :
    Coloc.step stW lineW = Coloc.scanHeader (Coloc.flush stW) lineW ∧
    Corr.step stWB lineW = Corr.scanHeader (Corr.flush stWB) lineW ∧
    Coloc.extract_results a4lines =
      dinsert (a4lines.foldl Coloc.step Coloc.initState).results
        (a4lines.foldl Coloc.step Coloc.initState).image_id
        (joinNL (a4lines.foldl Coloc.step Coloc.initState).result) ∧
    Corr.extract_results b4lines =
      dinsert (b4lines.foldl Corr.step Corr.initState).results
        (b4lines.foldl Corr.step Corr.initState).image_id
        (List.flatten (b4lines.foldl Corr.step Corr.initState).result) :=
  ⟨C1_flush_and_reeval.1 stW lineW (by decide) (by decide),
   C1_flush_and_reeval.2.1 stWB lineW (by decide) (by decide),
   C1_flush_and_reeval.2.2.1 a4lines (by decide),
   C1_flush_and_reeval.2.2.2 b4lines (by decide)⟩

/-! ### Step-shape lemmas for the two machines -/

theorem coloc_step_data {s : Coloc.MachineState} {l : Line} {id : Nat} {payload : List Char}
    (hx : s.extract = true) (hm : matchDataA l = some (id, payload)) :
    Coloc.step s l = { s with image_id := id, result := s.result ++ [payload] } := by
  simp [Coloc.step, hx, hm]

theorem coloc_step_flush {s : Coloc.MachineState} {l : Line}
    (hx : s.extract = true) (hm : matchDataA l = none) :
    Coloc.step s l = Coloc.scanHeader (Coloc.flush s) l := by
  simp [Coloc.step, Coloc.flush, Coloc.scanHeader, hx, hm]

theorem coloc_step_outside {s : Coloc.MachineState} {l : Line}
    (hx : s.extract = false) :
    Coloc.step s l = Coloc.scanHeader s l := by
  cases hh : matchHeaderA l <;> simp [Coloc.step, Coloc.scanHeader, hx, hh]

theorem corr_step_row {t : Corr.MachineState} {l : Line}
    (hx : t.image_id ≠ 0) (hl : startsT l = true) :
    Corr.step t l = { t with result := t.result ++ [l] } := by
  simp [Corr.step, hx, hl]

theorem corr_step_flush {t : Corr.MachineState} {l : Line}
    (hx : t.image_id ≠ 0) (hl : startsT l = false) :
    Corr.step t l = Corr.scanHeader (Corr.flush t) l := by
  simp [Corr.step, Corr.flush, Corr.scanHeader, hx, hl]

theorem corr_step_outside {t : Corr.MachineState} {l : Line}
    (hx : t.image_id = 0) :
    Corr.step t l = Corr.scanHeader t l := by
  cases hh : matchHeaderB l <;> simp [Corr.step, Corr.scanHeader, hx, hh]

/-! ### Invariant preservation -/

theorem coloc_inv_scanHeader {s : Coloc.MachineState} (l : Line)
    (hx : s.extract = false) (hid : s.image_id = 0)
    (h3 : (keysOf s.results).Nodup)
    (h4 : ∀ k v, (k, v) ∈ s.results → k ≠ 0 → '\n' ∈ v) :
    Coloc.Inv (Coloc.scanHeader s l) := by
  unfold Coloc.scanHeader
  cases hh : matchHeaderA l with
  | some g =>
      refine ⟨fun _ => by simp, fun hk => absurd hid hk, h3, h4⟩
  | none =>
      exact ⟨fun he => absurd he (by simp [hx]), fun hk => absurd hid hk, h3, h4⟩

theorem coloc_inv_step {s : Coloc.MachineState} (l : Line) (h : Coloc.Inv s) :
    Coloc.Inv (Coloc.step s l) := by
  obtain ⟨h1, h2, h3, h4⟩ := h
  by_cases hx : s.extract = true
  · cases hm : matchDataA l with
    | some idp =>
        obtain ⟨id, payload⟩ := idp
        rw [coloc_step_data hx hm]
        refine ⟨fun _ => ?_, fun _ => ⟨hx, ?_⟩, h3, h4⟩
        · simp
        · have := h1 hx
          simp only [List.length_append, List.length_singleton]
          omega
    | none =>
        rw [coloc_step_flush hx hm]
        apply coloc_inv_scanHeader _ rfl rfl
        · exact nodup_keys_dinsert _ _ h3
        · intro k v hm' hk
          rcases mem_dinsert hm' with hold | ⟨rfl, rfl⟩
          · exact h4 _ _ hold hk
          · exact newline_mem_joinNL (h2 hk).2
  · have hx' : s.extract = false := by simpa using hx
    have hid : s.image_id = 0 := by
      by_contra hne
      exact hx ((h2 hne).1)
    rw [coloc_step_outside hx']
    exact coloc_inv_scanHeader _ hx' hid h3 h4

theorem coloc_inv_fold : ∀ (lines : List Line) (s : Coloc.MachineState),
    Coloc.Inv s → Coloc.Inv (lines.foldl Coloc.step s)
  | [], _, h => h
  | l :: rest, _, h => coloc_inv_fold rest _ (coloc_inv_step l h)

theorem corr_inv_step {t : Corr.MachineState} (l : Line) (h : Corr.Inv t) :
    Corr.Inv (Corr.step t l) := by
  have hscan : ∀ t' : Corr.MachineState, Corr.Inv t' → Corr.Inv (Corr.scanHeader t' l) := by
    intro t' h'
    unfold Corr.scanHeader
    cases hh : matchHeaderB l <;> exact h'
  by_cases hx : t.image_id = 0
  · rw [corr_step_outside hx]
    exact hscan _ h
  · cases hl : startsT l with
    | true => rw [corr_step_row hx hl]; exact h
    | false =>
        rw [corr_step_flush hx hl]
        exact hscan _ (nodup_keys_dinsert _ _ h)

theorem corr_inv_fold : ∀ (lines : List Line) (t : Corr.MachineState),
    Corr.Inv t → Corr.Inv (lines.foldl Corr.step t)
  | [], _, h => h
  | l :: rest, _, h => corr_inv_fold rest _ (corr_inv_step l h)

/-! ### Claim C4 -/

/-- Claim C4 (amended): in the map either grammar returns, each image
identifier occurs as a key at most once (the key lists are duplicate-free);
in Grammar A, every block stored under a nonzero key contains at least one
parsed data row beyond its column header (its text contains the joining
newline) — but in Grammar B a key may map to a block containing zero data
rows (the label-seeded accumulator is flushed as-is; see the
counterexample), so presence in the map does not imply parsed rows. -/
theorem C4_map_invariants (lines : List Line) :
    (keysOf (Coloc.extract_results lines)).Nodup ∧
    (keysOf (Corr.extract_results lines)).Nodup ∧
    (∀ k v, (k, v) ∈ Coloc.extract_results lines → k ≠ 0 → '\n' ∈ v) := by
  have hA := coloc_inv_fold lines Coloc.initState
    ⟨by decide, by decide, by simp [Coloc.initState, keysOf], by simp [Coloc.initState]⟩
  have hB := corr_inv_fold lines Corr.initState (by simp [Corr.Inv, Corr.initState, keysOf])
  obtain ⟨hA1, hA2, hA3, hA4⟩ := hA
  refine ⟨?_, ?_, ?_⟩
  · unfold Coloc.extract_results
    split
    · exact nodup_keys_dinsert _ _ hA3
    · exact hA3
  · unfold Corr.extract_results
    split
    · exact nodup_keys_dinsert _ _ hB
    · exact hB
  · unfold Coloc.extract_results
    split
    · rename_i hid
      intro k v hm hk
      rcases mem_dinsert hm with hold | ⟨rfl, rfl⟩
      · exact hA4 _ _ hold hk
      · exact newline_mem_joinNL (hA2 hk).2
    · exact fun k v hm hk => hA4 _ _ hm hk

/-- Claim C4 counterexample: a correlation label line followed by a
non-row line yields a map entry for image 5 whose block is exactly the
label line — zero parsed data rows — contradicting the claim that an image
with no parsed rows is absent from the map. -/
theorem C4_cex :
    Corr.extract_results
        ["Stack correlation (Otsu) : 5.ome.tif\n".data, "garbage\n".data] =
      [(5, "Stack correlation (Otsu) : 5.ome.tif\n".data)] := by
  decide

/-- Claim C4 witness: the nonzero-key data-row guarantee of Grammar A,
instantiated on a concrete capture file. -/
theorem C4_witness : '\n' ∈ ("p,Method\n0,Otsu".data : Line) :=
  (C4_map_invariants a4lines).2.2 3 "p,Method\n0,Otsu".data (by decide) (by decide)

/-! ### Well-formed blocks and their processing -/

theorem dinsert_nil (k : Nat) (v : Line) : dinsert [] k v = [(k, v)] := rfl

theorem matchDataA_dataLineA {ds p : List Char} (hds : ds ≠ [])
    (hdig : ∀ c ∈ ds, isDigitCh c = true) (hp : ∀ c ∈ p, c ≠ '\n') :
    matchDataA (dataLineA ds p) = some (natOfDigits ds, p) := by
  have hshape : dataLineA ds p =
      ds ++ ('.' :: 'o' :: 'm' :: 'e' :: '.' :: 't' :: 'i' :: 'f' :: ',' :: (p ++ ['\n'])) := by
    simp [dataLineA]
  have htk0 : List.takeWhile isDigitCh
      ('.' :: 'o' :: 'm' :: 'e' :: '.' :: 't' :: 'i' :: 'f' :: ',' :: (p ++ ['\n'])) = [] := by
    rw [List.takeWhile_cons, if_neg (by decide)]
  have hdw0 : List.dropWhile isDigitCh
      ('.' :: 'o' :: 'm' :: 'e' :: '.' :: 't' :: 'i' :: 'f' :: ',' :: (p ++ ['\n'])) =
      '.' :: 'o' :: 'm' :: 'e' :: '.' :: 't' :: 'i' :: 'f' :: ',' :: (p ++ ['\n']) := by
    rw [List.dropWhile_cons, if_neg (by decide)]
  rw [hshape]
  unfold matchDataA
  rw [takeWhile_all_append hdig, dropWhile_all_append hdig, htk0, hdw0, List.append_nil]
  obtain ⟨d, t, rfl⟩ : ∃ d t, ds = d :: t := by
    cases ds with
    | nil => exact absurd rfl hds
    | cons d t => exact ⟨d, t, rfl⟩
  have hdl : (d :: t).drop (t.length + 1) = [] := List.drop_length (d :: t)
  have htl : (d :: t).take (t.length + 1) = d :: t := List.take_length (d :: t)
  show dataDigitsA (d :: t) _ (t.length + 1) = _
  simp only [dataDigitsA, hdl, List.nil_append, dataTailA]
  rw [if_pos (by decide)]
  rw [htl]
  show some (natOfDigits (d :: t), List.takeWhile (fun c => c != '\n') (p ++ ['\n'])) =
    some (natOfDigits (d :: t), p)
  rw [takeWhile_ne_newline hp]

theorem isPrefixCh_exists : ∀ (p l : List Char), isPrefixCh p l = true → ∃ t, l = p ++ t
  | [], l, _ => ⟨l, rfl⟩
  | _ :: _, [], h => absurd h (by simp [isPrefixCh])
  | a :: as, b :: bs, h => by
      simp only [isPrefixCh, Bool.and_eq_true, beq_iff_eq] at h
      obtain ⟨t, ht⟩ := isPrefixCh_exists as bs h.2
      exact ⟨t, by rw [h.1, ht]; rfl⟩

theorem matchDataA_of_headerA {l : Line} {g : List Char}
    (h : matchHeaderA l = some g) : matchDataA l = none := by
  unfold matchHeaderA at h
  split at h
  · rename_i hpre
    obtain ⟨t, ht⟩ := isPrefixCh_exists _ _ hpre
    have htw : List.takeWhile isDigitCh l = [] := by
      rw [ht]
      show List.takeWhile isDigitCh ('I' :: ("mage,p,Method".data ++ t)) = []
      rw [List.takeWhile_cons, if_neg (by decide)]
    unfold matchDataA
    rw [htw]
    rfl
  · exact absurd h (by simp)

theorem startsT_of_headerB {l : Line} {id : Nat}
    (h : matchHeaderB l = some id) : startsT l = false := by
  unfold matchHeaderB at h
  split at h
  · rename_i hpre
    obtain ⟨t, ht⟩ := isPrefixCh_exists _ _ hpre
    rw [ht]
    show startsT ('S' :: ("tack correlation ".data ++ t)) = false
    rfl
  · exact absurd h (by simp)

theorem coloc_fold_data {ds : List Char} (hds : ds ≠ [])
    (hdig : ∀ c ∈ ds, isDigitCh c = true) :
    ∀ (ps : List (List Char)) (s : Coloc.MachineState), s.extract = true →
      (∀ p ∈ ps, ∀ c ∈ p, c ≠ '\n') → ps ≠ [] →
      (ps.map (dataLineA ds)).foldl Coloc.step s =
        { s with result := s.result ++ ps, image_id := natOfDigits ds }
  | [], _, _, _, hne => absurd rfl hne
  | p :: ps, s, hx, hnl, _ => by
      have hstep := coloc_step_data hx (matchDataA_dataLineA hds hdig (hnl p (by simp)))
      cases ps with
      | nil =>
          simp only [List.map_cons, List.map_nil, List.foldl_cons, List.foldl_nil, hstep]
      | cons q qs =>
          rw [List.map_cons, List.foldl_cons, hstep]
          rw [coloc_fold_data hds hdig (q :: qs) _ (by simp [hx])
            (fun p' hp' => hnl p' (by simp [hp'])) (by simp)]
          simp

theorem coloc_fold_block {ds : List Char} (hds : ds ≠ [])
    (hdig : ∀ c ∈ ds, isDigitCh c = true) {g : List Char} {h : Line}
    (hh : matchHeaderA h = some g) (ps : List (List Char)) (s : Coloc.MachineState)
    (hx : s.extract = false) (hne : ps ≠ [])
    (hnl : ∀ p ∈ ps, ∀ c ∈ p, c ≠ '\n') :
    ((h :: ps.map (dataLineA ds)).foldl Coloc.step s) =
      { s with extract := true, result := g :: ps, image_id := natOfDigits ds } := by
  rw [List.foldl_cons, coloc_step_outside hx]
  unfold Coloc.scanHeader
  rw [hh]
  rw [coloc_fold_data hds hdig ps _ (by simp) hnl hne]
  simp

theorem corr_fold_rows : ∀ (rows : List Line) (t : Corr.MachineState), t.image_id ≠ 0 →
    (∀ r ∈ rows, startsT r = true) →
    rows.foldl Corr.step t = { t with result := t.result ++ rows }
  | [], _, _, _ => by simp
  | r :: rows, t, hx, hr => by
      rw [List.foldl_cons, corr_step_row hx (hr r (by simp))]
      rw [corr_fold_rows rows _ (by simpa using hx) (fun r' hr' => hr r' (by simp [hr']))]
      simp

theorem corr_fold_block {id : Nat} {h : Line} (hid : id ≠ 0)
    (hh : matchHeaderB h = some id) (rows : List Line) (t : Corr.MachineState)
    (hx : t.image_id = 0) (hr : ∀ r ∈ rows, startsT r = true) :
    ((h :: rows).foldl Corr.step t) =
      { t with result := h :: rows, image_id := id } := by
  rw [List.foldl_cons, corr_step_outside hx]
  unfold Corr.scanHeader
  rw [hh]
  rw [corr_fold_rows rows _ (by simpa using hid) hr]
  simp

/-! ### Claim C10 -/

/-- Claim C10: for either grammar, a capture file made of two well-formed
result blocks labelled with the same image identifier extracts to a map
whose single entry for that identifier is the block of the later
occurrence; the earlier block is overwritten by the dict assignment rather
than merged, kept, or reported. (Grammar A blocks are a header line plus
data lines all carrying digit string `ds`; Grammar B blocks are a label
line plus `t`-rows.) -/
theorem C10_duplicate_blocks :
    (∀ (ds : List Char) (h1 h2 : Line) (g1 g2 : List Char) (ps1 ps2 : List (List Char)),
        ds ≠ [] → (∀ c ∈ ds, isDigitCh c = true) → natOfDigits ds ≠ 0 →
        matchHeaderA h1 = some g1 → matchHeaderA h2 = some g2 →
        ps1 ≠ [] → ps2 ≠ [] →
        (∀ p ∈ ps1, ∀ c ∈ p, c ≠ '\n') → (∀ p ∈ ps2, ∀ c ∈ p, c ≠ '\n') →
        Coloc.extract_results (h1 :: ps1.map (dataLineA ds) ++ h2 :: ps2.map (dataLineA ds)) =
          [(natOfDigits ds, joinNL (g2 :: ps2))]) ∧
    (∀ (id : Nat) (h1 h2 : Line) (rows1 rows2 : List Line),
        id ≠ 0 → matchHeaderB h1 = some id → matchHeaderB h2 = some id →
        (∀ r ∈ rows1, startsT r = true) → (∀ r ∈ rows2, startsT r = true) →
        Corr.extract_results (h1 :: rows1 ++ h2 :: rows2) =
          [(id, List.flatten (h2 :: rows2))]) := by
  constructor
  · intro ds h1 h2 g1 g2 ps1 ps2 hds hdig hid hh1 hh2 hne1 hne2 hnl1 hnl2
    have hsplit : h1 :: ps1.map (dataLineA ds) ++ h2 :: ps2.map (dataLineA ds) =
        (h1 :: ps1.map (dataLineA ds)) ++ (h2 :: ps2.map (dataLineA ds)) := by
      simp
    unfold Coloc.extract_results
    rw [hsplit, List.foldl_append,
      coloc_fold_block hds hdig hh1 ps1 Coloc.initState rfl hne1 hnl1,
      List.foldl_cons, coloc_step_flush (by simp) (matchDataA_of_headerA hh2)]
    unfold Coloc.flush Coloc.scanHeader
    rw [hh2]
    simp only [Coloc.initState]
    rw [coloc_fold_data hds hdig ps2 _ (by simp) hnl2 hne2]
    simp only [dinsert_nil]
    rw [if_pos (by simpa using hid)]
    simp [dinsert_single]
  · intro id h1 h2 rows1 rows2 hid hh1 hh2 hr1 hr2
    have hsplit : h1 :: rows1 ++ h2 :: rows2 = (h1 :: rows1) ++ (h2 :: rows2) := by simp
    unfold Corr.extract_results
    rw [hsplit, List.foldl_append,
      corr_fold_block hid hh1 rows1 Corr.initState rfl hr1,
      List.foldl_cons, corr_step_flush (by simpa using hid) (startsT_of_headerB hh2)]
    unfold Corr.flush Corr.scanHeader
    rw [hh2]
    simp only [Corr.initState]
    rw [corr_fold_rows rows2 _ (by simpa using hid) hr2]
    simp only [dinsert_nil]
    rw [if_pos (by simpa using hid)]
    simp [dinsert_single]

/-- Claim C10 witness: two correlation blocks for image 7; the extracted
entry is the later block only. -/
theorem C10_witness :
    Corr.extract_results (hdr7 :: ["t1,a\n".data] ++ hdr7 :: ["t2,b\n".data]) =
      [(7, List.flatten (hdr7 :: ["t2,b\n".data]))] :=
  C10_duplicate_blocks.2 7 hdr7 hdr7 ["t1,a\n".data] ["t2,b\n".data]
    (by decide) (by decide) (by decide) (by decide) (by decide)

/-! ### Channel-resolution characterisation -/

theorem find_go_lb (c : String) : ∀ (chs : List String) (base r : Nat),
    Coloc.find_channel_index_go c base chs = Int.ofNat r → base ≤ r := by
  intro chs
  induction chs with
  | nil =>
      intro base r h
      simp only [Coloc.find_channel_index_go, Int.ofNat_eq_natCast] at h
      omega
  | cons ch rest ih =>
      intro base r h
      simp only [Coloc.find_channel_index_go, Int.ofNat_eq_natCast] at h
      split at h
      · omega
      · have := ih (base + 1) r h
        omega

theorem find_go_found (c : String) : ∀ (chs : List String) (base i : Nat),
    Coloc.find_channel_index_go c base chs = Int.ofNat (base + i) →
    i < chs.length ∧ (chs.get? i = some c ∨ toString (base + i + 1) = c) ∧
    ∀ j, j < i → ¬(chs.get? j = some c ∨ toString (base + j + 1) = c) := by
  intro chs
  induction chs with
  | nil =>
      intro base i h
      simp only [Coloc.find_channel_index_go, Int.ofNat_eq_natCast] at h
      omega
  | cons ch rest ih =>
      intro base i h
      simp only [Coloc.find_channel_index_go, Int.ofNat_eq_natCast] at h
      split at h
      · rename_i hcond
        have hi : i = 0 := by omega
        subst hi
        refine ⟨by simp, ?_, by omega⟩
        rcases hcond with hn | hp
        · exact Or.inl (by simp [hn])
        · exact Or.inr (by simpa using hp)
      · rename_i hcond
        cases i with
        | zero =>
            have := find_go_lb c rest (base + 1) base (by simpa using h)
            omega
        | succ i' =>
            have h' : Coloc.find_channel_index_go c (base + 1) rest = Int.ofNat (base + 1 + i') := by
              rw [h]
              congr 1
              omega
            obtain ⟨ih1, ih2, ih3⟩ := ih (base + 1) i' h'
            refine ⟨by simp; omega, ?_, ?_⟩
            · rcases ih2 with hn | hp
              · exact Or.inl (by simpa using hn)
              · refine Or.inr ?_
                have he : base + (i' + 1) + 1 = base + 1 + i' + 1 := by omega
                rw [he]
                exact hp
            · intro j hj
              cases j with
              | zero =>
                  intro hor
                  apply hcond
                  rcases hor with hn | hp
                  · exact Or.inl (by simpa using hn)
                  · exact Or.inr (by simpa using hp)
              | succ j' =>
                  intro hor
                  apply ih3 j' (by omega)
                  rcases hor with hn | hp
                  · exact Or.inl (by simpa using hn)
                  · refine Or.inr ?_
                    have he : base + 1 + j' + 1 = base + (j' + 1) + 1 := by omega
                    rw [he]
                    exact hp

theorem find_go_none (c : String) : ∀ (chs : List String) (base : Nat),
    Coloc.find_channel_index_go c base chs = -1 →
    ∀ j, j < chs.length → ¬(chs.get? j = some c ∨ toString (base + j + 1) = c) := by
  intro chs
  induction chs with
  | nil =>
      intro base _ j hj
      simp at hj
  | cons ch rest ih =>
      intro base h j hj
      simp only [Coloc.find_channel_index_go, Int.ofNat_eq_natCast] at h
      split at h
      · exact absurd h (by omega)
      · rename_i hcond
        cases j with
        | zero =>
            intro hor
            apply hcond
            rcases hor with hn | hp
            · exact Or.inl (by simpa using hn)
            · exact Or.inr (by simpa using hp)
        | succ j' =>
            intro hor
            apply ih (base + 1) h j' (by simp only [List.length_cons] at hj; omega)
            rcases hor with hn | hp
            · exact Or.inl (by simpa using hn)
            · refine Or.inr ?_
              have he : base + 1 + j' + 1 = base + (j' + 1) + 1 := by omega
              rw [he]
              exact hp

theorem errs_isEmpty_false : ∀ {l : List VErr}, l ≠ [] → l.isEmpty = false
  | [], h => absurd rfl h
  | _ :: _, _ => rfl

theorem channel_err_mem {images : List (Option Img)} {p : Coloc.Params} {img : Img} {c : String}
    (hmem : some img ∈ images) (hc : c ∈ Coloc.selList p)
    (hneg : Coloc.find_channel_index img c < 0) :
    VErr.channel img.id c ∈ (Coloc.check_parameters images p).2 := by
  have h1 : VErr.channel img.id c ∈ Coloc.channel_errors images p := by
    unfold Coloc.channel_errors
    refine List.mem_flatMap.mpr ⟨some img, hmem, ?_⟩
    refine List.mem_filterMap.mpr ⟨c, hc, ?_⟩
    rw [if_pos hneg]
  show VErr.channel img.id c ∈ Coloc.check_errors images p
  unfold Coloc.check_errors
  exact List.mem_append.mpr (Or.inl (List.mem_append.mpr (Or.inl h1)))

theorem check_false_of_mem {images : List (Option Img)} {p : Coloc.Params} {e : VErr}
    (h : e ∈ (Coloc.check_parameters images p).2) :
    (Coloc.check_parameters images p).1 = false :=
  errs_isEmpty_false (List.ne_nil_of_mem h)

/-! ### Claim C5 -/

/-- Claim C5 (amended): channel resolution scans the channels in order and
returns the smallest index at which either the channel name equals the
selector or the 1-based position printed in decimal equals the selector —
an exact name match does not take precedence over a positional match at a
smaller index (see the counterexample). The spec's examples hold: for
channels `["DAPI","GFP","RFP"]` selector `"GFP"` resolves to 0-based index
1, `"3"` to index 2, and the unresolvable `"Cy5"` yields `-1`, which makes
validation fail for any selected image. -/
theorem C5_channel_resolution :
    (Coloc.find_channel_index dapiImg "GFP" = 1) ∧
    (Coloc.find_channel_index dapiImg "3" = 2) ∧
    (Coloc.find_channel_index dapiImg "Cy5" = -1) ∧
    (∀ (images : List (Option Img)) (p : Coloc.Params) (img : Img),
        some img ∈ images → Coloc.find_channel_index img p.channel1 < 0 →
        (Coloc.check_parameters images p).1 = false) ∧
    (∀ (img : Img) (c : String) (i : Nat),
        Coloc.find_channel_index img c = Int.ofNat i →
        matchesAt img.channels c i ∧ ∀ j, j < i → ¬ matchesAt img.channels c j) ∧
    (∀ (img : Img) (c : String),
        Coloc.find_channel_index img c = -1 →
        ∀ j, j < img.channels.length → ¬ matchesAt img.channels c j) := by
  refine ⟨by decide, by decide, by decide, ?_, ?_, ?_⟩
  · intro images p img hmem hneg
    exact check_false_of_mem (channel_err_mem hmem (by simp [Coloc.selList]) hneg)
  · intro img c i h
    have h0 : Coloc.find_channel_index_go c 0 img.channels = Int.ofNat (0 + i) := by
      rw [Nat.zero_add]
      exact h
    obtain ⟨h1, h2, h3⟩ := find_go_found c img.channels 0 i h0
    refine ⟨⟨h1, ?_⟩, ?_⟩
    · rcases h2 with hn | hp
      · exact Or.inl hn
      · exact Or.inr (by simpa using hp)
    · intro j hj hm
      apply h3 j hj
      rcases hm.2 with hn | hp
      · exact Or.inl hn
      · exact Or.inr (by simpa using hp)
  · intro img c h j hj hm
    apply find_go_none c img.channels 0 h j hj
    rcases hm.2 with hn | hp
    · exact Or.inl hn
    · exact Or.inr (by simpa using hp)

/-- Claim C5 counterexample: with channels `["A","B","2"]` the selector
`"2"` has an exact name match at index 2, yet resolution returns index 1,
where `"2"` only matches as the 1-based position — the positional
interpretation at the smaller index wins, so exact-name matches do not
take precedence. -/
theorem C5_cex :
    Coloc.find_channel_index chImg "2" = 1 ∧
    chImg.channels.get? 2 = some "2" ∧ (1 : Int) ≠ 2 := by
  refine ⟨?_, ?_, ?_⟩ <;> decide

/-- Claim C5 witness: the validation-failure and characterisation parts of
the claim, instantiated at concrete inputs. -/
theorem C5_witness :
    (Coloc.check_parameters [some imgA] colocPbad).1 = false ∧
    matchesAt dapiImg.channels "3" 2 ∧
    ¬ matchesAt dapiImg.channels "Cy5" 0 :=
  ⟨C5_channel_resolution.2.2.2.1 [some imgA] colocPbad imgA (by decide) (by decide),
   (C5_channel_resolution.2.2.2.2.1 dapiImg "3" 2 (by decide)).1,
   C5_channel_resolution.2.2.2.2.2 dapiImg "Cy5" (by decide) 0 (by decide)⟩

/-! ### E-mail pattern soundness -/

theorem mem_takeWhile_q {q : Char → Bool} : ∀ {l : List Char} {x : Char},
    x ∈ l.takeWhile q → q x = true := by
  intro l
  induction l with
  | nil => intro x h; simp at h
  | cons a t ih =>
      intro x h
      rw [List.takeWhile_cons] at h
      by_cases ha : q a = true
      · rw [if_pos ha] at h
        rcases List.mem_cons.mp h with rfl | h
        · exact ha
        · exact ih h
      · rw [if_neg ha] at h
        simp at h

theorem emailScan_exists {ms rest : List Char} : ∀ {k : Nat}, emailScan ms rest k = true →
    ∃ j, 1 ≤ j ∧ j ≤ k ∧ emailTail (ms.drop j ++ rest) = true := by
  intro k
  induction k with
  | zero => intro h; simp [emailScan] at h
  | succ k ih =>
      intro h
      simp only [emailScan, Bool.or_eq_true] at h
      rcases h with h | h
      · exact ⟨k + 1, by omega, le_refl _, h⟩
      · obtain ⟨j, h1, h2, h3⟩ := ih h
        exact ⟨j, h1, by omega, h3⟩

theorem letterTailN_exists {r : List Char} : ∀ {n : Nat}, letterTailN r n = true →
    ∃ m, 2 ≤ m ∧ m ≤ n ∧ (r.take m).length = m ∧ (r.take m).all isLetterCh = true ∧
      endOk (r.drop m) = true := by
  intro n
  induction n with
  | zero => intro h; simp [letterTailN] at h
  | succ n ih =>
      intro h
      simp only [letterTailN, Bool.or_eq_true, Bool.and_eq_true, decide_eq_true_eq,
        beq_iff_eq] at h
      rcases h with ⟨⟨⟨h2, hlen⟩, hall⟩, hend⟩ | h
      · exact ⟨n + 1, h2, le_refl _, hlen, hall, hend⟩
      · obtain ⟨m, a, b, c', d, e⟩ := ih h
        exact ⟨m, a, by omega, c', d, e⟩

theorem endOk_cases : ∀ {z : List Char}, endOk z = true → z = [] ∨ z = ['\n']
  | [], _ => Or.inl rfl
  | [c], h => Or.inr (by simp [endOk] at h; rw [h])
  | _ :: _ :: _, h => by simp [endOk] at h

/-! ### Claim C6 -/

/-- Claim C6 (amended): the e-mail validation accepts a string only if it
has the structural form: a nonempty local part over `[a-zA-Z0-9._%-]`,
then `@`, then a nonempty run over the same class, then one arbitrary
non-newline character (the pattern's dot is unescaped, so it matches any
character, not only a literal dot), then a 2–6 letter top-level segment at
the end. A dot in the domain part is therefore not required of accepted
addresses (see the counterexample). -/
theorem C6_email_structure (s : String) (h : validate_email s = true) :
    EmailShape s.data := by
  unfold validate_email emailMatch at h
  split at h
  · rename_i r2 heq
    split at h
    · exact absurd h (by simp)
    · rename_i hne
      obtain ⟨j, hj1, hj2, htail⟩ := emailScan_exists h
      cases hcr : (r2.takeWhile isEmailChar).drop j ++ r2.dropWhile isEmailChar with
      | nil => rw [hcr] at htail; simp [emailTail] at htail
      | cons c r =>
          rw [hcr] at htail
          simp only [emailTail, Bool.and_eq_true, bne_iff_ne] at htail
          obtain ⟨hc, hlt⟩ := htail
          obtain ⟨m, hm2, hm6, hmlen, hmall, hend⟩ := letterTailN_exists hlt
          refine ⟨s.data.takeWhile isEmailChar, (r2.takeWhile isEmailChar).take j, c,
            r.take m, r.drop m, ?_, ?_, ?_, ?_, ?_, hc, hmall, ?_, ?_, endOk_cases hend⟩
          · have e1 : s.data = s.data.takeWhile isEmailChar ++ ('@' :: r2) := by
              rw [← heq, List.takeWhile_append_dropWhile]
            have e2 : r2 = (r2.takeWhile isEmailChar).take j ++ (c :: (r.take m ++ r.drop m)) := by
              rw [List.take_append_drop m r, ← hcr]
              rw [← List.append_assoc, List.take_append_drop, List.takeWhile_append_dropWhile]
            conv_lhs => rw [e1]
            rw [← e2]
          · intro contra
            apply hne
            rw [contra]
            rfl
          · exact List.all_eq_true.mpr (fun x hx => mem_takeWhile_q hx)
          · have hlen : ((r2.takeWhile isEmailChar).take j).length = j := by
              rw [List.length_take]
              omega
            intro contra
            rw [contra] at hlen
            simp at hlen
            omega
          · refine List.all_eq_true.mpr (fun x hx => ?_)
            exact mem_takeWhile_q (List.mem_of_mem_take hx)
          · omega
          · omega
  · exact absurd h (by simp)

/-- Claim C6 counterexample: `"a@bbcc"` is accepted by the validation even
though it contains no dot at all — the pattern's dot matches the letter
`b` — contradicting the claim that every accepted address contains a dot
in its domain part. -/
theorem C6_cex : validate_email "a@bbcc" = true ∧ '.' ∉ "a@bbcc".data := by
  constructor
  · decide
  · decide

/-- Claim C6 witness: the structural decomposition of a concretely
accepted address. -/
theorem C6_witness : EmailShape "a@b.co".data :=
  C6_email_structure "a@b.co" (by decide)

/-! ### Pipeline lemmas -/

theorem extract_images_ok {fails : List Nat} :
    ∀ {images : List (Option Img)} {l : List Img} {tr : List Act},
      extract_images fails images = Except.ok (l, tr) →
      l = images.filterMap id := by
  intro images
  induction images with
  | nil =>
      intro l tr h
      simp only [extract_images, Except.ok.injEq, Prod.mk.injEq] at h
      simp [← h.1]
  | cons o rest ih =>
      intro l tr h
      cases o with
      | none =>
          simp only [extract_images] at h
          rw [List.filterMap_cons]
          exact ih h
      | some img =>
          simp only [extract_images] at h
          split at h
          · exact absurd h (by simp)
          · split at h
            · exact absurd h (by simp)
            · rename_i l' tr' heq
              simp only [Except.ok.injEq, Prod.mk.injEq] at h
              rw [List.filterMap_cons, ← h.1]
              simp [ih heq]

theorem extract_images_ok_of_no_fail (fails : List Nat) :
    ∀ (images : List (Option Img)),
      (∀ img : Img, some img ∈ images → img.id ∉ fails) →
      extract_images fails images =
        Except.ok (images.filterMap id,
          (images.filterMap id).map (fun img => Act.exportImage img.id)) := by
  intro images
  induction images with
  | nil => intro _; rfl
  | cons o rest ih =>
      intro hno
      cases o with
      | none =>
          simp only [extract_images]
          rw [ih (fun img hm => hno img (by simp [hm]))]
          simp
      | some img =>
          simp only [extract_images]
          rw [if_neg (hno img (by simp))]
          rw [ih (fun i hm => hno i (by simp [hm]))]
          simp

theorem run_imagej_ok {S : PipelineSpec} {env : RunEnv} {exported : List Img}
    {results : List (Nat × Line)} {tr1 : List Act}
    (h : run_imagej S env exported = Except.ok (results, tr1)) :
    results = (if exported.isEmpty then []
               else if env.procLaunchFails then []
               else if env.procExit ≠ 0 then []
               else S.extract env.captureLines) := by
  unfold run_imagej at h
  split at h
  · rename_i hemp
    simp only [Except.ok.injEq, Prod.mk.injEq] at h
    rw [if_pos hemp]
    exact h.1.symm
  · rename_i hemp
    split at h
    · simp only [Except.ok.injEq, Prod.mk.injEq] at h
      rw [if_neg hemp]
      exact h.1.symm
    · exact absurd h (by simp)

theorem run_validation_abort {S : PipelineSpec} {env : RunEnv}
    (h : (S.check env.images).1 = false) : runPipeline S env = (some (-1), []) := by
  unfold runPipeline
  by_cases hids : S.ids.isEmpty = true
  · rw [if_pos hids]
  · rw [if_neg hids, if_pos h]

theorem runPipeline_ok_eq {S : PipelineSpec} {env : RunEnv} {exported : List Img}
    {tr0 : List Act} {results : List (Nat × Line)} {tr1 : List Act}
    (hids : S.ids.isEmpty = false)
    (hchk : (S.check env.images).1 = true)
    (hex : extract_images env.exportFails env.images = Except.ok (exported, tr0))
    (hrj : run_imagej S env exported = Except.ok (results, tr1)) :
    runPipeline S env = distributePhase S env tr0 tr1 results := by
  unfold runPipeline
  rw [if_neg (by simp [hids]), if_neg (by simp [hchk])]
  split
  · rename_i tr' heq
    rw [hex] at heq
    simp at heq
  · rename_i exported' tr0' heq
    rw [hex] at heq
    simp only [Except.ok.injEq, Prod.mk.injEq] at heq
    obtain ⟨he1, he2⟩ := heq
    subst he1
    subst he2
    split
    · rename_i tr1' heq2
      rw [hrj] at heq2
      simp at heq2
    · rename_i results' tr1' heq2
      rw [hrj] at heq2
      simp only [Except.ok.injEq, Prod.mk.injEq] at heq2
      obtain ⟨hr1, hr2⟩ := heq2
      subst hr1
      subst hr2
      rfl

/-! ### Claim C2 -/

/-- Claim C2: when any validation precondition is violated — an
unresolvable channel selector for some selected image, maximum shift not
strictly above minimum shift, or neither distribution flag set — the
printed failure report contains an entry for every violation found (not
only the first), `check_parameters` returns `False`, and the run returns
the validation-failure result `-1` with an empty action trace: no export,
no external-process invocation, no distribution. The correlation variant
has no channel or shift parameters; its only precondition is the
distribution one. -/
theorem C2_validation_gate :
    (∀ (images : List (Option Img)) (p : Coloc.Params) (img : Img) (c : String),
        some img ∈ images → c ∈ Coloc.selList p → Coloc.find_channel_index img c < 0 →
        VErr.channel img.id c ∈ (Coloc.check_parameters images p).2) ∧
    (∀ (images : List (Option Img)) (p : Coloc.Params),
        p.maxShift ≤ p.minShift →
        VErr.shift p.maxShift p.minShift ∈ (Coloc.check_parameters images p).2) ∧
    (∀ (images : List (Option Img)) (p : Coloc.Params),
        p.uploadResults = false → p.emailResults = false →
        VErr.noDistribution ∈ (Coloc.check_parameters images p).2) ∧
    (∀ (p : Coloc.Params) (env : RunEnv),
        (Coloc.check_parameters env.images p).2 ≠ [] →
        (Coloc.check_parameters env.images p).1 = false ∧
        runPipeline (Coloc.spec p) env = (some (-1), [])) ∧
    (∀ (p : Corr.Params) (env : RunEnv),
        p.uploadResults = false → p.emailResults = false →
        (Corr.check_parameters env.images p).1 = false ∧
        VErr.noDistribution ∈ (Corr.check_parameters env.images p).2 ∧
        runPipeline (Corr.spec p) env = (some (-1), [])) := by
  refine ⟨?_, ?_, ?_, ?_, ?_⟩
  · intro images p img c hmem hc hneg
    exact channel_err_mem hmem hc hneg
  · intro images p h
    show VErr.shift p.maxShift p.minShift ∈ Coloc.check_errors images p
    unfold Coloc.check_errors
    rw [if_pos h]
    exact List.mem_append.mpr (Or.inl (List.mem_append.mpr (Or.inr (by simp))))
  · intro images p hup hem
    show VErr.noDistribution ∈ Coloc.check_errors images p
    unfold Coloc.check_errors
    refine List.mem_append.mpr (Or.inr ?_)
    rw [if_pos (by rw [hup, hem]; rfl)]
    simp
  · intro p env hne
    have hf : (Coloc.check_parameters env.images p).1 = false := errs_isEmpty_false hne
    exact ⟨hf, run_validation_abort hf⟩
  · intro p env hup hem
    have hf : (Corr.check_parameters env.images p).1 = false := by
      show (Corr.check_errors p).isEmpty = false
      unfold Corr.check_errors
      rw [if_pos (by rw [hup, hem]; rfl)]
      rfl
    refine ⟨hf, ?_, run_validation_abort hf⟩
    show VErr.noDistribution ∈ Corr.check_errors p
    unfold Corr.check_errors
    rw [if_pos (by rw [hup, hem]; rfl)]
    simp

/-- Claim C2 witness: all three colocalisation violations are reported for
a concrete bad parameter set, and both pipelines abort with `-1` and an
empty trace. -/
theorem C2_witness :
    VErr.channel 1 "zz" ∈ (Coloc.check_parameters [some imgA] colocPbad).2 ∧
    VErr.shift 1 5 ∈ (Coloc.check_parameters [some imgA] colocPbad).2 ∧
    VErr.noDistribution ∈ (Coloc.check_parameters [some imgA] colocPbad).2 ∧
    runPipeline (Coloc.spec colocPbad) envW2 = (some (-1), []) ∧
    runPipeline (Corr.spec corrPbad) envW2 = (some (-1), []) := by
  refine ⟨?_, ?_, ?_, ?_, ?_⟩
  · exact C2_validation_gate.1 [some imgA] colocPbad imgA "zz" (by decide) (by decide) (by decide)
  · exact C2_validation_gate.2.1 [some imgA] colocPbad (by decide)
  · exact C2_validation_gate.2.2.1 [some imgA] colocPbad (by decide) (by decide)
  · exact (C2_validation_gate.2.2.2.1 colocPbad envW2 (by decide)).2
  · exact (C2_validation_gate.2.2.2.2 corrPbad envW2 (by decide) (by decide)).2.2

/-! ### Claim C3 -/

/-- Claim C3: whenever `run` returns normally, it returns `-1` exactly
when the id list is empty or parameter validation failed; any other return
value is the non-negative size of the extracted results map — the number
of images for which a result block was produced, with `0` a valid
non-error outcome (e.g. an empty or unparseable capture file). -/
theorem C3_return_contract (S : PipelineSpec) (env : RunEnv) (r : Int) (tr : List Act)
    (h : runPipeline S env = (some r, tr)) :
    (r = -1 ↔ (S.ids = [] ∨ (S.check env.images).1 = false)) ∧
    (r = -1 ∨ 0 ≤ r) ∧
    (S.ids ≠ [] → (S.check env.images).1 = true →
      r = ((pipelineResults S env).length : Int)) := by
  unfold runPipeline at h
  by_cases hids : S.ids.isEmpty = true
  · rw [if_pos hids] at h
    have hid' : S.ids = [] := by
      cases hl : S.ids with
      | nil => rfl
      | cons a t => rw [hl] at hids; simp at hids
    simp only [Prod.mk.injEq, Option.some.injEq] at h
    obtain ⟨hr, -⟩ := h
    refine ⟨⟨fun _ => Or.inl hid', fun _ => hr.symm⟩, Or.inl hr.symm, ?_⟩
    intro hne _
    exact absurd hid' hne
  · rw [if_neg hids] at h
    have hidne : S.ids ≠ [] := by
      intro hc
      apply hids
      rw [hc]
      rfl
    by_cases hchk : (S.check env.images).1 = false
    · rw [if_pos hchk] at h
      simp only [Prod.mk.injEq, Option.some.injEq] at h
      obtain ⟨hr, -⟩ := h
      refine ⟨⟨fun _ => Or.inr hchk, fun _ => hr.symm⟩, Or.inl hr.symm, ?_⟩
      intro _ hck
      rw [hck] at hchk
      exact absurd hchk (by simp)
    · rw [if_neg hchk] at h
      have hck : (S.check env.images).1 = true := by
        cases hb : (S.check env.images).1
        · exact absurd hb hchk
        · rfl
      split at h
      · simp at h
      · rename_i exported tr0 heq
        have hfm := extract_images_ok heq
        split at h
        · simp at h
        · rename_i results tr1 heq2
          have hres := run_imagej_ok heq2
          have hresults : results = pipelineResults S env := by
            rw [hres, pipelineResults, hfm]
          unfold distributePhase at h
          have hfin : r = (results.length : Int) := by
            split at h
            · split at h
              · simp at h
              · split at h
                · simp at h
                · simp only [Prod.mk.injEq, Option.some.injEq] at h
                  exact h.1.symm
            · split at h
              · simp at h
              · simp only [Prod.mk.injEq, Option.some.injEq] at h
                exact h.1.symm
          refine ⟨⟨?_, ?_⟩, Or.inr (by rw [hfin]; omega), ?_⟩
          · intro hm1
            rw [hfin] at hm1
            omega
          · intro hor
            rcases hor with hc | hc
            · exact absurd hc hidne
            · rw [hc] at hck
              exact absurd hck (by simp)
          · intro _ _
            rw [hfin, hresults]

/-- Claim C3 witness: a run whose external tool produced no matching output
returns `0`, the size of the (empty) results map. -/
theorem C3_witness :
    (0 : Int) = ((pipelineResults (Corr.spec corrP42) envEmpty).length : Int) :=
  (C3_return_contract (Corr.spec corrP42) envEmpty 0
      [Act.exportImage 42, Act.invokeTool, Act.removeTempFiles, Act.removeTempDir]
      (by decide)).2.2 (by decide) (by decide)

/-! ### Claim C7 -/

/-- Claim C7 (amended): unresolvable (`None`) image references are skipped
per image — the remaining images are all exported, in the original
selection order, and the export step completes without aborting. A read
failure while exporting one image, however, propagates as an exception:
the remaining images are not exported and the run is aborted (see the
counterexample). -/
theorem C7_export_handling (fails : List Nat) (images : List (Option Img))
    (h : ∀ img : Img, some img ∈ images → img.id ∉ fails) :
    extract_images fails images =
      Except.ok (images.filterMap id,
        (images.filterMap id).map (fun img => Act.exportImage img.id)) :=
  extract_images_ok_of_no_fail fails images h

/-- Claim C7 counterexample: with images 1, 2, 3 selected and the read of
image 2 failing, the run aborts after exporting image 1 only — image 3 is
never exported and the run as a whole is aborted (no return value),
contradicting the claim that a failing export is handled per image. -/
theorem C7_cex :
    runPipeline (Corr.spec corrP) envC7 = (none, [Act.exportImage 1]) ∧
    Act.exportImage 3 ∉ (runPipeline (Corr.spec corrP) envC7).2 := by
  constructor
  · decide
  · decide

/-- Claim C7 witness: a selection with an unresolvable reference between
two readable images exports both, in order, without aborting. -/
theorem C7_witness :
    extract_images [9] [some imgA, none, some imgB] =
      Except.ok (([some imgA, none, some imgB].filterMap id),
        ([some imgA, none, some imgB].filterMap id).map (fun img => Act.exportImage img.id)) := by
  apply C7_export_handling
  intro img hm
  simp only [List.mem_cons, List.not_mem_nil, or_false] at hm
  rcases hm with h | h | h
  · cases h
    decide
  · exact absurd h (by simp)
  · cases h
    decide

/-! ### Claim C8 -/

/-- Claim C8 (amended): for a run that passes validation and in which no
step raises an uncaught exception (all exports readable, script generation
succeeds, the e-mail submission and the directory removal do not raise),
workspace teardown is the final step: the action trace ends with the
temporary-directory removal and the run returns normally — even when the
external-tool invocation itself fails (launch error or non-zero exit), and
the temporary-file removal inside `run_imagej` still happens in that case
whenever anything was exported. However, an uncaught exception in a later
step skips the directory removal entirely, and a directory-removal failure
propagates to the caller instead of being logged (see the
counterexample). -/
theorem C8_teardown (S : PipelineSpec) (env : RunEnv)
    (hids : S.ids ≠ [])
    (hchk : (S.check env.images).1 = true)
    (hnof : ∀ img : Img, some img ∈ env.images → img.id ∉ env.exportFails)
    (hbo : S.buildOk env.images (env.images.filterMap id) = true)
    (hem : env.emailFails = false)
    (hrm : env.rmdirFails = false) :
    (runPipeline S env).1 = some ((pipelineResults S env).length : Int) ∧
    (runPipeline S env).2.getLast? = some Act.removeTempDir ∧
    (env.images.filterMap id ≠ [] → Act.removeTempFiles ∈ (runPipeline S env).2) := by
  have hids' : S.ids.isEmpty = false := by
    cases hl : S.ids with
    | nil => exact absurd hl hids
    | cons a t => rfl
  have hex := extract_images_ok_of_no_fail env.exportFails env.images hnof
  by_cases hemp : (env.images.filterMap id).isEmpty = true
  · have hrj : run_imagej S env (env.images.filterMap id) = Except.ok ([], []) := by
      unfold run_imagej
      rw [if_pos hemp]
    rw [runPipeline_ok_eq hids' hchk hex hrj]
    have hpr : pipelineResults S env = [] := by
      unfold pipelineResults
      rw [if_pos hemp]
    unfold distributePhase
    rw [if_neg (by simp)]
    rw [if_neg (by simp [hrm])]
    refine ⟨by rw [hpr], getLast?_append_single _ _, ?_⟩
    intro hne
    exact absurd (by cases hfm : env.images.filterMap id with
      | nil => rfl
      | cons a t => rw [hfm] at hemp; simp at hemp) hne
  · have hemp' : ¬((env.images.filterMap id).isEmpty = true) := by simp [hemp]
    have hrj : run_imagej S env (env.images.filterMap id) =
        Except.ok ((if env.procLaunchFails then []
                    else if env.procExit ≠ 0 then []
                    else S.extract env.captureLines),
                   [Act.invokeTool, Act.removeTempFiles]) := by
      unfold run_imagej
      rw [if_neg hemp', if_pos hbo]
    rw [runPipeline_ok_eq hids' hchk hex hrj]
    have hpr : pipelineResults S env =
        (if env.procLaunchFails then []
         else if env.procExit ≠ 0 then []
         else S.extract env.captureLines) := by
      unfold pipelineResults
      rw [if_neg hemp']
    have hmemf : Act.removeTempFiles ∈
        runTrace S ((env.images.filterMap id).map (fun img => Act.exportImage img.id))
          [Act.invokeTool, Act.removeTempFiles]
          (if env.procLaunchFails then []
           else if env.procExit ≠ 0 then []
           else S.extract env.captureLines) := by
      unfold runTrace
      exact List.mem_append.mpr (Or.inl (List.mem_append.mpr (Or.inr (by simp))))
    unfold distributePhase
    by_cases hd : (!(if env.procLaunchFails then []
                     else if env.procExit ≠ 0 then []
                     else S.extract env.captureLines).isEmpty && S.emailResults) = true
    · rw [if_pos hd, if_neg (by simp [hem]), if_neg (by simp [hrm])]
      refine ⟨by rw [hpr], ?_, fun _ => List.mem_append.mpr (Or.inl hmemf)⟩
      show (_ ++ ([Act.sendEmail] ++ [Act.removeTempDir])).getLast? = _
      rw [← List.append_assoc]
      exact getLast?_append_single _ _
    · rw [if_neg hd, if_neg (by simp [hrm])]
      exact ⟨by rw [hpr], getLast?_append_single _ _,
        fun _ => List.mem_append.mpr (Or.inl hmemf)⟩

/-- Claim C8 counterexample: two runs that pass validation. In the first
the e-mail submission raises: the run aborts and the directory removal is
never attempted (`removeTempDir` is not in the trace). In the second the
directory removal itself fails: the failure propagates out of `run`
(no return value) instead of being logged as a warning. -/
theorem C8_cex :
    runPipeline (Coloc.spec colocP) envC8a =
      (none, [Act.exportImage 42, Act.invokeTool, Act.removeTempFiles]) ∧
    Act.removeTempDir ∉ (runPipeline (Coloc.spec colocP) envC8a).2 ∧
    (runPipeline (Coloc.spec colocP) envC8b).1 = none := by
  refine ⟨?_, ?_, ?_⟩ <;> decide

/-- Claim C8 witness: a fully successful colocalisation run ends with the
directory removal and contains the temporary-file removal. -/
theorem C8_witness :
    (runPipeline (Coloc.spec colocP) envOK).2.getLast? = some Act.removeTempDir ∧
    Act.removeTempFiles ∈ (runPipeline (Coloc.spec colocP) envOK).2 := by
  have h := C8_teardown (Coloc.spec colocP) envOK (by decide) (by decide)
    (by intro img hm
        simp only [envOK, List.mem_singleton] at hm
        injection hm with h
        subst h
        decide)
    (by decide) (by decide) (by decide)
  exact ⟨h.2.1, h.2.2 (by decide)⟩

/-! ### Claim C9 -/

/-- Claim C9 (code bug): the script-generation loop pairs the i-th exported
file with `images[i]` of the unfiltered selection. When an unresolvable
(skipped) reference precedes an exported image, the loop reads the skipped
`None` entry and crashes before emitting any command block, so the blocks
do not use the exported image's own metadata as the claim requires; with
no skipped references the pairing is aligned and each block carries that
image's dimensions. -/
theorem C9_script_misalignment :
    runPipeline (Corr.spec corrP42) envC9 = (none, [Act.exportImage 42]) ∧
    Corr.build_script [none, some img42] [img42] = none ∧
    Corr.build_script [some img42] [img42] =
      some [{ path := "42.ome.tif", channels := 2, slices := 3, frames := 4 }] ∧
    Coloc.build_script colocP [none, some img42] [img42] = none := by
  refine ⟨?_, ?_, ?_, ?_⟩ <;> decide
